import Mathlib

/-!
# Verification of the SubCloseProd late-interest calculation core

A shallow embedding, in Lean 4, of the interest/allocation calculation core of
the SubCloseProd repository:

* `backend/app/models/data_models.py` — the data model,
* `backend/app/calculators/interest_rate_calculator.py` — rate resolution and
  interest accrual,
* `backend/app/calculators/late_interest_calculator.py` — per-LP late interest,
* `backend/app/calculators/allocation_calculator.py` — pro-rata allocation,
* `dev/late_interest_engine.py` — the orchestration loop
  (`LateInterestEngine.run_complete_calculation`).

Modelling conventions:

* Python `datetime.date` values are modelled by their proleptic Gregorian
  ordinal (`date.toordinal`), so a date is an integer and
  `(e - s).days = e - s`.  `mkDate y m d` builds the ordinal of a civil date.
* Python `Decimal` values are modelled as exact rationals (`ℚ`).  Every
  operation the core performs on `Decimal`s (addition, multiplication,
  division, quantize) is modelled exactly; `Decimal`'s 28-significant-digit
  context rounding is far below every rounding boundary the core applies
  (`calc_rounding` / `sum_rounding` decimal places) and is ignored.
  `Decimal.quantize` with the default context rounds half-to-even, which is
  modelled exactly by `roundHalfEvenZ` below.
* Code paths that raise Python exceptions are modelled with
  `Except String`; the message records which exception the source raises.
* Python's stable `list.sort` / `sorted` are modelled by
  `List.insertionSort`, which is stable (any two stable sorting algorithms
  produce identical output on the same keyed input).
-/

/-! ## Dates

A `Date` is a proleptic Gregorian ordinal, as returned by Python's
`date.toordinal()` (day 1 is 0001-01-01). -/

abbrev Date := ℤ

/-- Days contributed by the `y` complete years 1..y (Gregorian leap rule),
matching Python's `datetime` ordinal arithmetic. -/
def daysBeforeYear (y : ℕ) : ℕ :=
  365 * y + y / 4 - y / 100 + y / 400

/-- Cumulative day counts before each month in a non-leap year. -/
def monthOffsets : List ℕ :=
  [0, 31, 59, 90, 120, 151, 181, 212, 243, 273, 304, 334]

/-- Gregorian leap-year test. -/
def isLeapYear (y : ℕ) : Bool :=
  (y % 4 == 0 && y % 100 != 0) || y % 400 == 0

/-- The ordinal of the civil date `y-m-d` (1-based months and days), equal to
Python's `date(y, m, d).toordinal()`. -/
def mkDate (y m d : ℕ) : Date :=
  ((daysBeforeYear (y - 1)
    + monthOffsets.getD (m - 1) 0
    + (if isLeapYear y && decide (3 ≤ m) then 1 else 0)
    + d : ℕ) : ℤ)

/-! ## Rounding

`LateInterestCalculator._round_amount` and
`AllocationCalculator._round_amount` are textually identical helpers.  They
call `Decimal.quantize` with no explicit rounding mode, so the default
context rounding `ROUND_HALF_EVEN` applies: round to the nearest
representable value, ties to the one whose last digit is even. -/

/-- Round a rational to the nearest integer, ties to even
(the semantics of `Decimal.quantize(Decimal('1'))` under the default
context rounding `ROUND_HALF_EVEN`). -/
def roundHalfEvenZ (q : ℚ) : ℤ :=
  if q - (⌊q⌋ : ℚ) < 1 / 2 then ⌊q⌋
  else if 1 / 2 < q - (⌊q⌋ : ℚ) then ⌊q⌋ + 1
  else if ⌊q⌋ % 2 = 0 then ⌊q⌋ else ⌊q⌋ + 1

/-- `_round_amount(amount, decimal_places)` from
`late_interest_calculator.py` (and its identical copy in
`allocation_calculator.py`): quantize to `decimal_places` decimal places
under the default context rounding (half-even). -/
def round_amount (amount : ℚ) (decimal_places : ℕ) : ℚ :=
  if decimal_places = 0 then
    (roundHalfEvenZ amount : ℚ)
  else
    (roundHalfEvenZ (amount * 10 ^ decimal_places) : ℚ) / 10 ^ decimal_places

/-- Decidable equality on `Except`, so that concrete runs of the embedded
(fallible) functions can be checked by `decide`. -/
instance exceptDecEq {ε : Type} {α : Type} [DecidableEq ε] [DecidableEq α] :
    DecidableEq (Except ε α)
  | .error e, .error f =>
    match decEq e f with
    | isTrue h => isTrue (by rw [h])
    | isFalse h => isFalse (fun hh => h (Except.error.injEq .. ▸ hh))
  | .error _, .ok _ => isFalse (fun hh => Except.noConfusion hh)
  | .ok _, .error _ => isFalse (fun hh => Except.noConfusion hh)
  | .ok a, .ok b =>
    match decEq a b with
    | isTrue h => isTrue (by rw [h])
    | isFalse h => isFalse (fun hh => h (Except.ok.injEq .. ▸ hh))

/-! ## Data model (`data_models.py`) -/

/-- `InterestCompounding` enum. -/
inductive InterestCompounding where
  | simple
  | compound
deriving DecidableEq

/-- `InterestBase` enum. -/
inductive InterestBase where
  | prime
  | flat
deriving DecidableEq

/-- `EndDateCalculation` enum. -/
inductive EndDateCalculation where
  | issue_date
  | due_date
deriving DecidableEq

/-- `PrimeRateChange`: a historical rate change. -/
structure PrimeRateChange where
  effective_date : Date
  rate : ℚ
deriving DecidableEq

/-- `FundAssumptions`: configuration for late interest calculations. -/
structure FundAssumptions where
  fund_name : String
  late_interest_compounding : InterestCompounding
  late_interest_base : InterestBase
  late_spread : ℚ
  end_date_calculation : EndDateCalculation
  mgmt_fee_allocated_interest : Bool
  allocated_to_all_existing_lps : Bool
  calc_rounding : ℕ
  sum_rounding : ℕ
  prime_rate_history : List PrimeRateChange
  flat_rate : Option ℚ
deriving DecidableEq

/-- `Partner`: an LP in the fund. -/
structure Partner where
  name : String
  issue_date : Date
  commitment : ℚ
  close_number : ℤ
deriving DecidableEq

/-- `CapitalCall`: capital call details. -/
structure CapitalCall where
  call_number : ℤ
  due_date : Date
  call_percentage : ℚ
deriving DecidableEq

/-- `CapitalCall.get_call_amount`: the call amount for a commitment. -/
def CapitalCall.get_call_amount (call : CapitalCall) (commitment : ℚ) : ℚ :=
  commitment * (call.call_percentage / 100)

/-- `LateInterestDetail`: late interest for a single capital call. -/
structure LateInterestDetail where
  call_number : ℤ
  due_date : Date
  call_percentage : ℚ
  capital_amount : ℚ
  late_interest : ℚ
  days_late : ℤ
  effective_rate : ℚ
deriving DecidableEq

/-- `NewLPCalculation`: complete late interest calculation for a new LP. -/
structure NewLPCalculation where
  partner_name : String
  issue_date : Date
  commitment : ℚ
  close_number : ℤ
  total_catch_up : ℚ
  total_late_interest_due : ℚ
  breakdown_by_capital_call : List LateInterestDetail
deriving DecidableEq

/-- `ExistingLPAllocation`: late interest allocation to an existing LP.
The Python `dict` field `allocation_by_admitting_close` is modelled as an
association list in insertion order. -/
structure ExistingLPAllocation where
  partner_name : String
  commitment : ℚ
  close_number : ℤ
  total_allocation : ℚ
  allocation_by_admitting_close : List (ℤ × ℚ)
deriving DecidableEq

/-! ## Interest rate calculator (`interest_rate_calculator.py`) -/

/-- The two configurations `InterestRateCalculator.__init__` can end up in:
flat-rate mode (`is_flat_rate = True`, a `flat_rate`, zero spread) or
variable-rate mode (`rate_history` sorted descending by effective date, plus
a `spread`). -/
inductive RateConfig where
  | flatRate (flat_rate : ℚ)
  | varRate (rate_history : List PrimeRateChange) (spread : ℚ)
deriving DecidableEq

/-- `InterestRateCalculator` instance state: the compounding method and the
mode-specific configuration. -/
structure InterestRateCalculator where
  compounding : InterestCompounding
  config : RateConfig
deriving DecidableEq

/-- `sorted(rate_history, key=lambda x: x.effective_date, reverse=True)`:
Python's stable descending sort, modelled by a stable insertion sort under the
reversed comparison (any two stable sorts by the same key agree). -/
def sortRateHistoryDesc (rate_history : List PrimeRateChange) : List PrimeRateChange :=
  rate_history.insertionSort (fun a b => b.effective_date ≤ a.effective_date)

/-- `InterestRateCalculator.__init__`: flat mode if `flat_rate` is given,
else variable mode if `rate_history` is given (spread defaulting to 0),
else `ValueError`. -/
def mkInterestRateCalculator (compounding : InterestCompounding)
    (rate_history : Option (List PrimeRateChange)) (spread : Option ℚ)
    (flat_rate : Option ℚ) : Except String InterestRateCalculator :=
  match flat_rate with
  | some fr => .ok { compounding := compounding, config := .flatRate fr }
  | none =>
    match rate_history with
    | some h =>
      .ok { compounding := compounding,
            config := .varRate (sortRateHistoryDesc h) (spread.getD 0) }
    | none => .error "ValueError: Must provide either rate_history or flat_rate"

/-- `InterestRateCalculator.get_rate_at_date`: flat mode returns the flat
rate; variable mode scans the descending history for the first entry with
`effective_date ≤ target_date` and returns its rate plus the spread, falls
back to the last (oldest) entry when the target precedes every entry, and
raises `ValueError` on an empty history. -/
def get_rate_at_date (c : InterestRateCalculator) (target_date : Date) :
    Except String ℚ :=
  match c.config with
  | .flatRate fr => .ok fr
  | .varRate rate_history spread =>
    match rate_history.find? (fun rc => decide (rc.effective_date ≤ target_date)) with
    | some rc => .ok (rc.rate + spread)
    | none =>
      match rate_history.getLast? with
      | some rc => .ok (rc.rate + spread)
      | none => .error "ValueError: No rate history available"

/-- The per-boundary loop of `_calculate_simple_interest` (variable-rate
branch): walk the ascending rate-change boundaries, and for each segment of
positive length accrue `principal * (rate/100) * (segment_days/365)` at the
rate effective at the segment start.  Returns the final `current_date` and
the accumulated interest. -/
def simpleSegLoop (c : InterestRateCalculator) (principal : ℚ) :
    List PrimeRateChange → Date → ℚ → Except String (Date × ℚ)
  | [], current_date, acc => .ok (current_date, acc)
  | rc :: rest, current_date, acc =>
    let segment_days : ℤ := rc.effective_date - current_date
    if 0 < segment_days then
      match get_rate_at_date c current_date with
      | .error e => .error e
      | .ok rate =>
        simpleSegLoop c principal rest rc.effective_date
          (acc + principal * (rate / 100) * ((segment_days : ℚ) / 365))
    else
      simpleSegLoop c principal rest rc.effective_date acc

/-- The ascending list of rate changes strictly inside the accrual period
(`start_date < effective_date ≤ end_date`), as built by
`_calculate_simple_interest` from the calculator's stored (descending)
history and then sorted ascending. -/
def rateChangesInPeriod (rate_history : List PrimeRateChange)
    (start_date end_date : Date) : List PrimeRateChange :=
  (rate_history.filter (fun rc =>
      decide (start_date < rc.effective_date) && decide (rc.effective_date ≤ end_date))).insertionSort
    (fun a b => a.effective_date ≤ b.effective_date)

/-- `InterestRateCalculator._calculate_simple_interest`.  Inclusive total day
count; flat mode is a single product; variable mode accrues per-segment
(non-inclusive day counts) with an inclusive final segment, then reports the
weighted average rate `(total_interest / principal) * (365/total_days) * 100`
— a `Decimal` division that raises when `principal` is zero. -/
def calculate_simple_interest (c : InterestRateCalculator) (principal : ℚ)
    (start_date end_date : Date) : Except String (ℚ × ℚ) :=
  let total_days : ℤ := end_date - start_date + 1
  if total_days ≤ 0 then .ok (0, 0)
  else
    match c.config with
    | .flatRate fr =>
      .ok (principal * (fr / 100) * ((total_days : ℚ) / 365), fr)
    | .varRate rate_history _ =>
      (simpleSegLoop c principal
          (rateChangesInPeriod rate_history start_date end_date) start_date 0).bind
        (fun seg =>
          (if 0 < end_date - seg.1 + 1 then
            (get_rate_at_date c seg.1).bind (fun rate =>
              .ok (seg.2 + principal * (rate / 100) *
                (((end_date - seg.1 + 1 : ℤ) : ℚ) / 365)))
          else .ok seg.2).bind
          (fun total_interest =>
            if principal = 0 then
              .error "InvalidOperation: 0 / 0 in weighted average rate"
            else
              .ok (total_interest,
                (total_interest / principal) * (365 / (total_days : ℚ)) * 100)))

/-- The effective annualized rate reported by the compound branch is
`((final_balance / principal) ^ (1 / t_total) - 1) * 100`, a real
`total_days`-th root with no exact rational value in general.  The model
does not evaluate it; no claim below concerns the compound branch, which is
reachable only when `late_interest_compounding` is `COMPOUND`. -/
def compoundEffectiveRate (_final_balance _principal : ℚ) (_total_days : ℤ) : ℚ := 0

/-- The per-boundary loop of `_calculate_compound_interest` (variable-rate
branch, daily compounding): the running balance grows by
`(1 + rate/100/365) ^ segment_days` through each positive-length segment. -/
def compoundSegLoop (c : InterestRateCalculator) :
    List PrimeRateChange → Date → ℚ → Except String (Date × ℚ)
  | [], current_date, balance => .ok (current_date, balance)
  | rc :: rest, current_date, balance =>
    let segment_days : ℤ := rc.effective_date - current_date
    if 0 < segment_days then
      match get_rate_at_date c current_date with
      | .error e => .error e
      | .ok rate =>
        compoundSegLoop c rest rc.effective_date
          (balance * (1 + (rate / 100) / 365) ^ segment_days.toNat)
    else
      compoundSegLoop c rest rc.effective_date balance

/-- `InterestRateCalculator._calculate_compound_interest` with the `daily`
frequency (the only one `calculate_interest` ever passes): `n = 365`, so
each segment's exponent `n * t` is exactly its day count.  The effective
annualized rate is a real root, represented by `compoundEffectiveRate`. -/
def calculate_compound_interest (c : InterestRateCalculator) (principal : ℚ)
    (start_date end_date : Date) : Except String (ℚ × ℚ) :=
  let total_days : ℤ := end_date - start_date + 1
  if total_days ≤ 0 then .ok (0, 0)
  else
    match c.config with
    | .flatRate fr =>
      let amount := principal * (1 + (fr / 100) / 365) ^ total_days.toNat
      .ok (amount - principal, fr)
    | .varRate rate_history _ =>
      (compoundSegLoop c
          (rateChangesInPeriod rate_history start_date end_date) start_date principal).bind
        (fun seg =>
          (if 0 < end_date - seg.1 + 1 then
            (get_rate_at_date c seg.1).bind (fun rate =>
              .ok (seg.2 * (1 + (rate / 100) / 365) ^ (end_date - seg.1 + 1).toNat))
          else .ok seg.2).bind
          (fun final_balance =>
            if principal = 0 then
              .error "DivisionByZero: division by zero in effective annual rate"
            else
              .ok (final_balance - principal,
                compoundEffectiveRate final_balance principal total_days)))

/-- `InterestRateCalculator.calculate_interest`: reject `end_date <
start_date` with `ValueError`, then dispatch on the compounding method
(compound always uses the daily frequency). -/
def calculate_interest (c : InterestRateCalculator) (principal : ℚ)
    (start_date end_date : Date) : Except String (ℚ × ℚ) :=
  if end_date < start_date then
    .error "ValueError: End date must be after start date"
  else
    match c.compounding with
    | .simple => calculate_simple_interest c principal start_date end_date
    | .compound => calculate_compound_interest c principal start_date end_date

/-! ## Late interest calculator (`late_interest_calculator.py`) -/

/-- `LateInterestCalculator.__init__`: build the rate calculator from the
fund assumptions — variable mode with the prime history and spread when
`late_interest_base` is `prime`, otherwise flat mode with `flat_rate`
(raising inside `InterestRateCalculator.__init__` when it is missing). -/
def mkLateInterestRateCalculator (a : FundAssumptions) :
    Except String InterestRateCalculator :=
  match a.late_interest_base with
  | .prime =>
    mkInterestRateCalculator a.late_interest_compounding
      (some a.prime_rate_history) (some a.late_spread) none
  | .flat =>
    mkInterestRateCalculator a.late_interest_compounding none none a.flat_rate

/-- `LateInterestCalculator._calculate_late_interest_for_call`: the capital
amount owed, the policy-dependent end date, and either a zero detail (when
`days_late ≤ 0`) or the accrued interest with per-line-item rounding to
`calc_rounding`. -/
def calculate_late_interest_for_call (a : FundAssumptions)
    (rate_calculator : InterestRateCalculator) (new_lp : Partner)
    (call : CapitalCall) : Except String LateInterestDetail :=
  let capital_amount := call.get_call_amount new_lp.commitment
  let end_date : Date :=
    match a.end_date_calculation with
    | .issue_date => new_lp.issue_date
    | .due_date => call.due_date
  let days_late : ℤ := end_date - call.due_date
  if days_late ≤ 0 then
    .ok { call_number := call.call_number, due_date := call.due_date,
          call_percentage := call.call_percentage,
          capital_amount := capital_amount, late_interest := 0,
          days_late := 0, effective_rate := 0 }
  else
    match calculate_interest rate_calculator capital_amount call.due_date end_date with
    | .error e => .error e
    | .ok (late_interest, effective_rate) =>
      .ok { call_number := call.call_number, due_date := call.due_date,
            call_percentage := call.call_percentage,
            capital_amount := round_amount capital_amount a.calc_rounding,
            late_interest := round_amount late_interest a.calc_rounding,
            days_late := days_late,
            effective_rate := round_amount effective_rate a.calc_rounding }

/-- The missed-call list of
`LateInterestCalculator.calculate_late_interest_for_new_lp`: calls due
strictly before the LP's issue date, sorted (stably) by call number. -/
def missedCalls (new_lp : Partner) (capital_calls : List CapitalCall) :
    List CapitalCall :=
  (capital_calls.filter (fun call => decide (call.due_date < new_lp.issue_date))).insertionSort
    (fun x y => x.call_number ≤ y.call_number)

/-- The per-call loop of `calculate_late_interest_for_new_lp`, building the
breakdown in missed-call order. -/
def detailsLoop (a : FundAssumptions) (rate_calculator : InterestRateCalculator)
    (new_lp : Partner) : List CapitalCall → Except String (List LateInterestDetail)
  | [] => .ok []
  | call :: rest =>
    match calculate_late_interest_for_call a rate_calculator new_lp call with
    | .error e => .error e
    | .ok detail =>
      match detailsLoop a rate_calculator new_lp rest with
      | .error e => .error e
      | .ok ds => .ok (detail :: ds)

/-- `LateInterestCalculator.calculate_late_interest_for_new_lp`: compute a
detail per missed call, then round the summed catch-up capital and summed
late interest to `sum_rounding`. -/
def calculate_late_interest_for_new_lp (a : FundAssumptions)
    (rate_calculator : InterestRateCalculator) (new_lp : Partner)
    (capital_calls : List CapitalCall) : Except String NewLPCalculation :=
  match detailsLoop a rate_calculator new_lp (missedCalls new_lp capital_calls) with
  | .error e => .error e
  | .ok breakdown =>
    .ok { partner_name := new_lp.name, issue_date := new_lp.issue_date,
          commitment := new_lp.commitment, close_number := new_lp.close_number,
          total_catch_up :=
            round_amount ((breakdown.map (·.capital_amount)).sum) a.sum_rounding,
          total_late_interest_due :=
            round_amount ((breakdown.map (·.late_interest)).sum) a.sum_rounding,
          breakdown_by_capital_call := breakdown }

/-! ## Allocation calculator (`allocation_calculator.py`) -/

/-- `AllocationCalculator.calculate_allocations` (Contract A): existing
partners are those with `close_number < admitting_close_number`; empty ⇒
`([], 0)`; zero collected late interest ⇒ `([], 0)`; zero total existing
commitment ⇒ `ValueError`; otherwise each existing partner receives
`round(total_late_interest * commitment / total_existing_commitment,
calc_rounding)` and the total is re-rounded to `sum_rounding`. -/
def calculate_allocations (a : FundAssumptions)
    (new_lps : List NewLPCalculation) (all_partners : List Partner)
    (admitting_close_number : ℤ) :
    Except String (List ExistingLPAllocation × ℚ) :=
  let existing_partners :=
    all_partners.filter (fun p => decide (p.close_number < admitting_close_number))
  if existing_partners.isEmpty then .ok ([], 0)
  else
    let total_late_interest :=
      ((new_lps.filter (fun lp => decide (lp.close_number = admitting_close_number))).map
        (·.total_late_interest_due)).sum
    if total_late_interest = 0 then .ok ([], 0)
    else
      let total_existing_commitment := (existing_partners.map (·.commitment)).sum
      if total_existing_commitment = 0 then
        .error "ValueError: Total existing commitment cannot be zero"
      else
        let allocations := existing_partners.map (fun p =>
          let allocation_amount :=
            round_amount (total_late_interest * (p.commitment / total_existing_commitment))
              a.calc_rounding
          { partner_name := p.name, commitment := p.commitment,
            close_number := p.close_number,
            total_allocation := allocation_amount,
            allocation_by_admitting_close :=
              [(admitting_close_number, allocation_amount)] : ExistingLPAllocation })
        .ok (allocations,
          round_amount ((allocations.map (·.total_allocation)).sum) a.sum_rounding)

/-- `get_allocation_commitment` (local helper of
`calculate_allocations_with_increases`): the original commitment from the
`commitment_increases` map when the partner is named there, else the
partner's current commitment. -/
def get_allocation_commitment (commitment_increases : List (String × ℚ))
    (p : Partner) : ℚ :=
  match commitment_increases.lookup p.name with
  | some original => original
  | none => p.commitment

/-- `AllocationCalculator.calculate_allocations_with_increases` (Contract
B): as Contract A, but the allocation basis (denominator and numerator)
uses `get_allocation_commitment`, while the reported `commitment` field
stays the partner's current commitment. -/
def calculate_allocations_with_increases (a : FundAssumptions)
    (new_lps : List NewLPCalculation) (all_partners : List Partner)
    (commitment_increases : List (String × ℚ)) (admitting_close_number : ℤ) :
    Except String (List ExistingLPAllocation × ℚ) :=
  let existing_partners :=
    all_partners.filter (fun p => decide (p.close_number < admitting_close_number))
  if existing_partners.isEmpty then .ok ([], 0)
  else
    let total_late_interest :=
      ((new_lps.filter (fun lp => decide (lp.close_number = admitting_close_number))).map
        (·.total_late_interest_due)).sum
    if total_late_interest = 0 then .ok ([], 0)
    else
      let total_existing_commitment :=
        (existing_partners.map (get_allocation_commitment commitment_increases)).sum
      if total_existing_commitment = 0 then
        .error "ValueError: Total existing commitment cannot be zero"
      else
        let allocations := existing_partners.map (fun p =>
          let allocation_amount :=
            round_amount
              (total_late_interest *
                (get_allocation_commitment commitment_increases p / total_existing_commitment))
              a.calc_rounding
          { partner_name := p.name, commitment := p.commitment,
            close_number := p.close_number,
            total_allocation := allocation_amount,
            allocation_by_admitting_close :=
              [(admitting_close_number, allocation_amount)] : ExistingLPAllocation })
        .ok (allocations,
          round_amount ((allocations.map (·.total_allocation)).sum) a.sum_rounding)

/-- `dict[close] = allocation` on the Python per-partner
`allocation_by_admitting_close` map: replace an existing key or append a
new one in insertion order. -/
def upsertAssoc (l : List (ℤ × ℚ)) (k : ℤ) (v : ℚ) : List (ℤ × ℚ) :=
  if l.any (fun kv => decide (kv.1 = k)) then
    l.map (fun kv => if kv.1 = k then (k, v) else kv)
  else l ++ [(k, v)]

/-- One inner step of
`AllocationCalculator.aggregate_allocations_across_closes`: create the
partner's accumulator record on first sight (carrying that allocation's
`commitment` and `close_number`), then add this close's allocation to its
running total and record it under the close number. -/
def aggUpsert (acc : List ExistingLPAllocation) (close_num : ℤ)
    (alloc : ExistingLPAllocation) : List ExistingLPAllocation :=
  if acc.any (fun e => e.partner_name == alloc.partner_name) then
    acc.map (fun e =>
      if e.partner_name = alloc.partner_name then
        { e with
          total_allocation := e.total_allocation + alloc.total_allocation,
          allocation_by_admitting_close :=
            upsertAssoc e.allocation_by_admitting_close close_num
              alloc.total_allocation }
      else e)
  else
    acc ++ [{ partner_name := alloc.partner_name,
              commitment := alloc.commitment,
              close_number := alloc.close_number,
              total_allocation := alloc.total_allocation,
              allocation_by_admitting_close :=
                [(close_num, alloc.total_allocation)] }]

/-- `AllocationCalculator.aggregate_allocations_across_closes` (Contract
C): fold every close's allocation list into per-partner accumulator
records (insertion order), then round each partner's summed total to
`sum_rounding`. -/
def aggregate_allocations_across_closes (a : FundAssumptions)
    (allocations_by_close : List (ℤ × List ExistingLPAllocation)) :
    List ExistingLPAllocation :=
  let collected := allocations_by_close.foldl
    (fun acc pair => pair.2.foldl (fun acc2 alloc => aggUpsert acc2 pair.1 alloc) acc)
    []
  collected.map (fun e =>
    { e with total_allocation := round_amount e.total_allocation a.sum_rounding })

/-! ## Orchestrator (`dev/late_interest_engine.py`) -/

/-- One row of the engine's `close_summaries` output. -/
structure CloseSummary where
  close_number : ℤ
  new_lps_count : ℕ
  existing_lps_count : ℕ
  total_collected : ℚ
  total_allocated : ℚ
  difference : ℚ
deriving DecidableEq

/-- `EngineOutput` of `run_complete_calculation`.  The Python version
serializes the amounts to decimal strings; the model keeps them as exact
rationals.  `partners_final` and `capital_calls_final` record the post-run
contents of the two caller-supplied lists (the engine sorts `partners` in
place and never touches `capital_calls`). -/
structure EngineOutput where
  fund_name : String
  total_late_interest_collected : ℚ
  total_late_interest_allocated : ℚ
  new_lps : List NewLPCalculation
  existing_lps : List ExistingLPAllocation
  summary_by_close : List CloseSummary
  partners_final : List Partner
  capital_calls_final : List CapitalCall
deriving DecidableEq

/-- `partners.sort(key=lambda p: p.close_number)`: Python's stable in-place
sort, modelled by a stable insertion sort. -/
def sortPartnersByClose (partners : List Partner) : List Partner :=
  partners.insertionSort (fun p q => p.close_number ≤ q.close_number)

/-- `sorted(partners_by_close.keys())`: the distinct close numbers present
among the partners, in ascending order. -/
def allCloses (partners : List Partner) : List ℤ :=
  (((sortPartnersByClose partners).map (·.close_number)).dedup).insertionSort
    (fun a b => a ≤ b)

/-- `closes_to_process = all_closes[1:]`: every close except the first
(lowest) one. -/
def closesToProcess (partners : List Partner) : List ℤ :=
  (allCloses partners).tail

/-- The running accumulators of the engine's per-close loop. -/
structure RunAcc where
  new_lp_results : List NewLPCalculation
  allocations_by_close : List (ℤ × List ExistingLPAllocation)
  grand_total_collected : ℚ
  grand_total_allocated : ℚ
  close_summaries : List CloseSummary
deriving DecidableEq

/-- The per-new-LP loop of one close: compute each new LP's calculation in
order. -/
def newLpCalcsLoop (a : FundAssumptions) (rate_calculator : InterestRateCalculator)
    (capital_calls : List CapitalCall) :
    List Partner → Except String (List NewLPCalculation)
  | [] => .ok []
  | lp :: rest =>
    match calculate_late_interest_for_new_lp a rate_calculator lp capital_calls with
    | .error e => .error e
    | .ok c =>
      match newLpCalcsLoop a rate_calculator capital_calls rest with
      | .error e => .error e
      | .ok cs => .ok (c :: cs)

/-- The engine's per-close loop: at each close, compute late interest for
the close's new LPs, and — only when existing partners exist and the
collected total is positive — run the allocation calculator (the
with-increases variant when a commitment-increases map was supplied) and
record the close's allocations.  A close summary row is appended either
way. -/
def processCloses (a : FundAssumptions) (rate_calculator : InterestRateCalculator)
    (sorted_partners : List Partner) (capital_calls : List CapitalCall)
    (commitment_increases : List (String × ℚ)) :
    List ℤ → RunAcc → Except String RunAcc
  | [], acc => .ok acc
  | close_num :: rest, acc =>
    let new_lps_at_close :=
      sorted_partners.filter (fun p => decide (p.close_number = close_num))
    let existing_partners :=
      sorted_partners.filter (fun p => decide (p.close_number < close_num))
    match newLpCalcsLoop a rate_calculator capital_calls new_lps_at_close with
    | .error e => .error e
    | .ok new_lp_calcs =>
      let total_collected := (new_lp_calcs.map (·.total_late_interest_due)).sum
      if (!existing_partners.isEmpty) && decide (0 < total_collected) then
        let allocResult :=
          if !commitment_increases.isEmpty then
            calculate_allocations_with_increases a new_lp_calcs sorted_partners
              commitment_increases close_num
          else
            calculate_allocations a new_lp_calcs sorted_partners close_num
        match allocResult with
        | .error e => .error e
        | .ok (allocations, total_allocated) =>
          processCloses a rate_calculator sorted_partners capital_calls
            commitment_increases rest
            { new_lp_results := acc.new_lp_results ++ new_lp_calcs,
              allocations_by_close :=
                acc.allocations_by_close ++ [(close_num, allocations)],
              grand_total_collected := acc.grand_total_collected + total_collected,
              grand_total_allocated := acc.grand_total_allocated + total_allocated,
              close_summaries := acc.close_summaries ++
                [{ close_number := close_num,
                   new_lps_count := new_lps_at_close.length,
                   existing_lps_count := existing_partners.length,
                   total_collected := total_collected,
                   total_allocated := total_allocated,
                   difference := total_collected - total_allocated }] }
      else
        processCloses a rate_calculator sorted_partners capital_calls
          commitment_increases rest
          { new_lp_results := acc.new_lp_results ++ new_lp_calcs,
            allocations_by_close := acc.allocations_by_close,
            grand_total_collected := acc.grand_total_collected + total_collected,
            grand_total_allocated := acc.grand_total_allocated,
            close_summaries := acc.close_summaries ++
              [{ close_number := close_num,
                 new_lps_count := new_lps_at_close.length,
                 existing_lps_count := existing_partners.length,
                 total_collected := total_collected,
                 total_allocated := 0,
                 difference := total_collected - 0 }] }

/-- `LateInterestEngine.run_complete_calculation`: build the rate
calculator (the engine constructor), sort the caller's partner list in
place by close number, process every close after the first, aggregate the
per-close allocations across closes, and emit the combined output.  The
optional `commitment_increases` argument is the empty list when absent
(Python's falsy `None` / `{}`). -/
def run_complete_calculation (a : FundAssumptions) (partners : List Partner)
    (capital_calls : List CapitalCall)
    (commitment_increases : List (String × ℚ)) : Except String EngineOutput :=
  match mkLateInterestRateCalculator a with
  | .error e => .error e
  | .ok rate_calculator =>
    let sorted_partners := sortPartnersByClose partners
    match processCloses a rate_calculator sorted_partners capital_calls
        commitment_increases (closesToProcess partners)
        { new_lp_results := [], allocations_by_close := [],
          grand_total_collected := 0, grand_total_allocated := 0,
          close_summaries := [] } with
    | .error e => .error e
    | .ok acc =>
      let aggregated :=
        if acc.allocations_by_close.isEmpty then []
        else aggregate_allocations_across_closes a acc.allocations_by_close
      .ok { fund_name := a.fund_name,
            total_late_interest_collected := acc.grand_total_collected,
            total_late_interest_allocated := acc.grand_total_allocated,
            new_lps := acc.new_lp_results,
            existing_lps := aggregated,
            summary_by_close := acc.close_summaries,
            partners_final := sorted_partners,
            capital_calls_final := capital_calls }

/-! ## Helper lemmas for concrete evaluation -/

theorem roundHalfEvenZ_of_floor (q : ℚ) (z : ℤ) (h1 : (z : ℚ) ≤ q)
    (h2 : q < z + 1) :
    roundHalfEvenZ q =
      if q - z < 1 / 2 then z
      else if 1 / 2 < q - z then z + 1
      else if z % 2 = 0 then z else z + 1 := by
  have hz : ⌊q⌋ = z := Int.floor_eq_iff.mpr ⟨h1, by exact_mod_cast h2⟩
  rw [roundHalfEvenZ, hz]

theorem roundHalfEvenZ_intCast (z : ℤ) : roundHalfEvenZ (z : ℚ) = z := by
  rw [roundHalfEvenZ_of_floor (z : ℚ) z le_rfl (by norm_num)]
  norm_num

theorem round_amount_exact (q : ℚ) (d : ℕ) (z : ℤ)
    (h : q * 10 ^ d = (z : ℚ)) : round_amount q d = q := by
  unfold round_amount
  rcases eq_or_ne d 0 with hd | hd
  · subst hd
    have hq : q = (z : ℚ) := by simpa using h
    rw [if_pos rfl, hq, roundHalfEvenZ_intCast]
  · rw [if_neg hd, h, roundHalfEvenZ_intCast, ← h, mul_div_assoc]
    have : (10 : ℚ) ^ d ≠ 0 := by positivity
    field_simp

theorem round_amount_zero (d : ℕ) : round_amount 0 d = 0 :=
  round_amount_exact 0 d 0 (by norm_num)

/-! ## Specification-side definitions

These follow the wording of the natural-language specification (not the
source), for comparison against the embedded source functions. -/

/-- Rounding as the specification words it: round to `decimal_places`
decimal places with the round-half-up mode — a value exactly halfway
between two representable results rounds upward, away from zero. -/
def roundHalfUpSpec (amount : ℚ) (decimal_places : ℕ) : ℚ :=
  let x := amount * 10 ^ decimal_places
  let n : ℤ := if 0 ≤ x then ⌊x + 1 / 2⌋ else -⌊-x + 1 / 2⌋
  (n : ℚ) / 10 ^ decimal_places

/-- The rate resolver as a total function: the value `get_rate_at_date`
returns whenever it succeeds (and `0` on the empty-history error, which
cannot occur under the hypotheses of the theorems that use this). -/
def rateAtD (c : InterestRateCalculator) (target_date : Date) : ℚ :=
  match get_rate_at_date c target_date with
  | .ok r => r
  | .error _ => 0

/-- The specification's segment sum for simple variable-rate accrual over
`[seg_start, end_date]` with ascending boundary dates `bs`: each segment
before a boundary contributes
`principal * (rate-at-segment-start / 100) * ((boundary - seg_start) / 365)`
(non-inclusive day count), and the final segment contributes
`principal * (rate / 100) * ((end_date - seg_start + 1) / 365)`
(inclusive day count). -/
def specSegmentSum (c : InterestRateCalculator) (principal : ℚ)
    (end_date : Date) : Date → List Date → ℚ
  | seg_start, [] =>
    principal * (rateAtD c seg_start / 100) *
      (((end_date - seg_start + 1 : ℤ) : ℚ) / 365)
  | seg_start, b :: rest =>
    principal * (rateAtD c seg_start / 100) * (((b - seg_start : ℤ) : ℚ) / 365)
      + specSegmentSum c principal end_date b rest

/-- Concrete floors for the evaluation proofs. -/
theorem floor_eq_of (q : ℚ) (z : ℤ) (h1 : (z : ℚ) ≤ q) (h2 : q < z + 1) :
    ⌊q⌋ = z :=
  Int.floor_eq_iff.mpr ⟨h1, by exact_mod_cast h2⟩

/-! ## Claims -/

/-- **C1.** The claim states that the rounding helper `_round_amount` used at
every rounding boundary rounds half-up (ties away from zero).  The helper
calls `Decimal.quantize` with no rounding mode, so Python's default context
rounding `ROUND_HALF_EVEN` applies, and the engine imports `ROUND_HALF_UP`
without ever using it.  At `amount = 0.125`, `decimal_places = 2` the code
yields `0.12` (ties to even) while the claimed half-up mode yields `0.13`:
the code contradicts the specified rounding mode. -/
theorem C1_round_amount_is_half_even_not_half_up :
    round_amount (1 / 8) 2 = 3 / 25 ∧
    roundHalfUpSpec (1 / 8) 2 = 13 / 100 ∧
    round_amount (1 / 8) 2 ≠ roundHalfUpSpec (1 / 8) 2 := by
  have hx : (1 / 8 : ℚ) * 10 ^ (2 : ℕ) = 25 / 2 := by norm_num
  have h1 : round_amount (1 / 8) 2 = 3 / 25 := by
    rw [round_amount, if_neg (by norm_num), hx,
      roundHalfEvenZ_of_floor (25 / 2) 12 (by norm_num) (by norm_num)]
    norm_num
  have h2 : roundHalfUpSpec (1 / 8) 2 = 13 / 100 := by
    rw [roundHalfUpSpec]
    simp only [hx]
    rw [if_pos (by norm_num), show (25 / 2 + 1 / 2 : ℚ) = ((13 : ℤ) : ℚ) by norm_num,
      Int.floor_intCast]
    norm_num
  exact ⟨h1, h2, by rw [h1, h2]; norm_num⟩

/-- Scenario 1 evaluated on the embedded code: a flat 9.25% simple-interest
calculator over 2022-04-20 .. 2025-10-31 (inclusive count 1,291 days) on
principal 1,000,000 returns `1000000 * 0.0925 * 1291/365 = 23883500/73`. -/
theorem scenario1_eval :
    calculate_interest ⟨.simple, .flatRate (925 / 100)⟩ 1000000
      (mkDate 2022 4 20) (mkDate 2025 10 31) = .ok (23883500 / 73, 925 / 100) := by
  have e1 : mkDate 2022 4 20 = 738265 := by decide
  have e2 : mkDate 2025 10 31 = 739555 := by decide
  rw [calculate_interest, e1, e2, if_neg (by decide)]
  show calculate_simple_interest _ 1000000 738265 739555 = _
  rw [calculate_simple_interest]
  norm_num

/-- The rounding of Scenario 1's exact interest to cents. -/
theorem scenario1_rounded : round_amount (23883500 / 73) 2 = 32717123 / 100 := by
  have hx : (23883500 / 73 : ℚ) * 10 ^ (2 : ℕ) = 2388350000 / 73 := by norm_num
  rw [round_amount, if_neg (by norm_num), hx,
    roundHalfEvenZ_of_floor (2388350000 / 73) 32717123 (by norm_num) (by norm_num),
    if_pos (by norm_num)]
  norm_num

/-- **C3 (counterexample).** The claim asserts Scenario 1's interest equals
`$327,210.27`.  The inclusive day count is indeed 1,291, and the code
returns exactly `1,000,000 * 0.0925 * 1291/365 = 23883500/73`, but that
value is `$327,171.23` when rounded to cents — not `$327,210.27`: the
claim's dollar figure contradicts its own formula. -/
theorem C3_interest_is_not_327210_27 :
    (mkDate 2025 10 31 - mkDate 2022 4 20 + 1 = 1291) ∧
    calculate_interest ⟨.simple, .flatRate (925 / 100)⟩ 1000000
      (mkDate 2022 4 20) (mkDate 2025 10 31) = .ok (23883500 / 73, 925 / 100) ∧
    (23883500 / 73 : ℚ) ≠ 32721027 / 100 ∧
    round_amount (23883500 / 73) 2 ≠ 32721027 / 100 := by
  refine ⟨by decide, scenario1_eval, by norm_num, ?_⟩
  rw [scenario1_rounded]
  norm_num

/-- **C3 (amended).** Scenario 1 with principal 1,000,000, flat rate 9.25%,
simple interest, due 2022-04-20 and issue 2025-10-31: the inclusive day
count is 1,291 and the interest returned equals
`1,000,000 x 0.0925 x 1291/365 = 23883500/73`, i.e. `$327,171.23` rounded
to cents. -/
theorem C3_scenario1_amended :
    (mkDate 2025 10 31 - mkDate 2022 4 20 + 1 = 1291) ∧
    calculate_interest ⟨.simple, .flatRate (925 / 100)⟩ 1000000
      (mkDate 2022 4 20) (mkDate 2025 10 31)
      = .ok (1000000 * (925 / 100 / 100) * (1291 / 365), 925 / 100) ∧
    (1000000 * (925 / 100 / 100) * (1291 / 365) : ℚ) = 23883500 / 73 ∧
    round_amount (1000000 * (925 / 100 / 100) * (1291 / 365)) 2 = 32717123 / 100 := by
  have hv : (1000000 * (925 / 100 / 100) * (1291 / 365) : ℚ) = 23883500 / 73 := by
    norm_num
  refine ⟨by decide, ?_, hv, ?_⟩
  · rw [hv]; exact scenario1_eval
  · rw [hv]; exact scenario1_rounded

/-- A variable-rate (PRIME) simple-interest fund configuration with a
one-entry rate history, used to exhibit the zero-principal failure. -/
def c9VarAssumptions : FundAssumptions :=
  { fund_name := "F", late_interest_compounding := .simple,
    late_interest_base := .prime, late_spread := 0,
    end_date_calculation := .issue_date, mgmt_fee_allocated_interest := false,
    allocated_to_all_existing_lps := true, calc_rounding := 2,
    sum_rounding := 2, prime_rate_history := [⟨0, 5⟩], flat_rate := none }

/-- The same fund in flat-rate mode. -/
def c9FlatAssumptions : FundAssumptions :=
  { c9VarAssumptions with
      late_interest_base := .flat
      flat_rate := some 5
      prime_rate_history := [] }

/-- A new LP admitted at day 200 (close 2). -/
def c9NewLp : Partner := ⟨"LP", 200, 1000000, 2⟩

/-- A missed capital call due at day 100 with `call_percentage = 0`. -/
def c9Call : CapitalCall := ⟨1, 100, 0⟩

/-- **C9.** With a PRIME (variable-rate) fund in simple mode and a missed
capital call of `call_percentage = 0` that is 100 days late, the accrual
calculator is invoked with principal 0 and its weighted-average-rate
division `total_interest / principal` is a Decimal `0 / 0`, so the whole
LP calculation fails with an arithmetic error; the identical input under a
flat rate returns a zero-interest detail without error. -/
theorem C9_zero_principal_variable_raises_flat_returns_zero :
    ((mkLateInterestRateCalculator c9VarAssumptions).bind (fun rc =>
        calculate_late_interest_for_new_lp c9VarAssumptions rc c9NewLp [c9Call]))
      = .error "InvalidOperation: 0 / 0 in weighted average rate" ∧
    ((mkLateInterestRateCalculator c9FlatAssumptions).bind (fun rc =>
        calculate_late_interest_for_new_lp c9FlatAssumptions rc c9NewLp [c9Call])).map
        (fun out => (out.total_late_interest_due,
          out.breakdown_by_capital_call.map (fun d => (d.late_interest, d.days_late))))
      = .ok (0, [(0, 100)]) := by
  constructor
  · norm_num [c9VarAssumptions, c9NewLp, c9Call, mkLateInterestRateCalculator,
      mkInterestRateCalculator, sortRateHistoryDesc, Except.bind,
      calculate_late_interest_for_new_lp, missedCalls, detailsLoop,
      calculate_late_interest_for_call, CapitalCall.get_call_amount,
      calculate_interest, calculate_simple_interest, rateChangesInPeriod,
      simpleSegLoop, get_rate_at_date]
  · norm_num [c9FlatAssumptions, c9VarAssumptions, c9NewLp, c9Call,
      mkLateInterestRateCalculator, mkInterestRateCalculator, Except.bind,
      Except.map, calculate_late_interest_for_new_lp, missedCalls, detailsLoop,
      calculate_late_interest_for_call, CapitalCall.get_call_amount,
      calculate_interest, calculate_simple_interest, round_amount_zero,
      round_amount_exact 5 2 500 (by norm_num)]

/-- **C7.** `calculate_allocations` (Contract A) returns the empty list and
zero total when no partner has `close_number < admitting_close`; returns
empty/zero when the summed `total_late_interest_due` over new-LP
calculations at the admitting close is zero; fails with the
configuration error exactly when existing partners exist, the collected
total is nonzero, and the existing partners' total commitment is zero; and
returns successfully in every other case. -/
theorem C7_calculate_allocations_guard_cases (a : FundAssumptions)
    (new_lps : List NewLPCalculation) (all_partners : List Partner)
    (admitting_close_number : ℤ) :
    (all_partners.filter (fun p => decide (p.close_number < admitting_close_number)) = [] →
      calculate_allocations a new_lps all_partners admitting_close_number = .ok ([], 0)) ∧
    (((new_lps.filter (fun lp => decide (lp.close_number = admitting_close_number))).map
        (·.total_late_interest_due)).sum = 0 →
      calculate_allocations a new_lps all_partners admitting_close_number = .ok ([], 0)) ∧
    (all_partners.filter (fun p => decide (p.close_number < admitting_close_number)) ≠ [] →
      ((new_lps.filter (fun lp => decide (lp.close_number = admitting_close_number))).map
        (·.total_late_interest_due)).sum ≠ 0 →
      ((all_partners.filter (fun p => decide (p.close_number < admitting_close_number))).map
        (·.commitment)).sum = 0 →
      calculate_allocations a new_lps all_partners admitting_close_number
        = .error "ValueError: Total existing commitment cannot be zero") ∧
    (all_partners.filter (fun p => decide (p.close_number < admitting_close_number)) ≠ [] →
      ((new_lps.filter (fun lp => decide (lp.close_number = admitting_close_number))).map
        (·.total_late_interest_due)).sum ≠ 0 →
      ((all_partners.filter (fun p => decide (p.close_number < admitting_close_number))).map
        (·.commitment)).sum ≠ 0 →
      ∃ result, calculate_allocations a new_lps all_partners admitting_close_number
        = .ok result) := by
  refine ⟨fun h => ?_, fun h => ?_, fun h1 h2 h3 => ?_, fun h1 h2 h3 => ?_⟩ <;>
    simp only [calculate_allocations]
  · rw [h]; rfl
  · by_cases he :
      all_partners.filter (fun p => decide (p.close_number < admitting_close_number)) = []
    · rw [he]; rfl
    · rw [if_neg (by simpa using he), if_pos h]
  · rw [if_neg (by simpa using h1), if_neg h2, if_pos h3]
  · rw [if_neg (by simpa using h1), if_neg h2, if_neg h3]
    exact ⟨_, rfl⟩

/-- An existing close-1 partner with zero commitment. -/
def c7Partner : Partner := ⟨"P", 0, 0, 1⟩

/-- A close-2 new-LP calculation owing late interest 5. -/
def c7NewLp : NewLPCalculation := ⟨"N", 200, 100, 2, 0, 5, []⟩

/-- Witness for C7: an existing partner with zero total commitment and a
nonzero collected total make `calculate_allocations` fail with the
configuration error. -/
theorem C7_calculate_allocations_guard_cases_witness :
    calculate_allocations c9FlatAssumptions [c7NewLp] [c7Partner] 2
      = .error "ValueError: Total existing commitment cannot be zero" :=
  (C7_calculate_allocations_guard_cases c9FlatAssumptions [c7NewLp] [c7Partner] 2).2.2.1
    (by simp [c7Partner]) (by norm_num [c7NewLp]) (by simp [c7Partner])

/-- **C5.** Whenever `calculate_allocations_with_increases` returns a
non-empty allocation list, it holds one record per existing partner, in
order; each record's displayed `commitment` is the partner's *current*
commitment; and each record's allocation is
`round(total_late_interest * basis / denominator, calc_rounding)` where
both the partner's basis and every denominator contribution use the
original (pre-increase) commitment from the `commitment_increases` map for
partners named there and the current commitment for partners absent from
it. -/
theorem C5_allocation_basis_uses_original_commitment (a : FundAssumptions)
    (new_lps : List NewLPCalculation) (all_partners : List Partner)
    (commitment_increases : List (String × ℚ)) (admitting_close_number : ℤ)
    (allocs : List ExistingLPAllocation) (total : ℚ)
    (h : calculate_allocations_with_increases a new_lps all_partners
          commitment_increases admitting_close_number = .ok (allocs, total))
    (hne : allocs ≠ []) :
    allocs.length = (all_partners.filter
        (fun p => decide (p.close_number < admitting_close_number))).length ∧
    ∀ i (hi : i < (all_partners.filter
          (fun p => decide (p.close_number < admitting_close_number))).length)
      (hi2 : i < allocs.length),
      (allocs.get ⟨i, hi2⟩).partner_name
        = ((all_partners.filter
            (fun p => decide (p.close_number < admitting_close_number))).get ⟨i, hi⟩).name ∧
      (allocs.get ⟨i, hi2⟩).commitment
        = ((all_partners.filter
            (fun p => decide (p.close_number < admitting_close_number))).get ⟨i, hi⟩).commitment ∧
      (allocs.get ⟨i, hi2⟩).total_allocation
        = round_amount
            (((new_lps.filter
                (fun lp => decide (lp.close_number = admitting_close_number))).map
                (·.total_late_interest_due)).sum *
              ((match commitment_increases.lookup
                  (((all_partners.filter
                    (fun p => decide (p.close_number < admitting_close_number))).get
                    ⟨i, hi⟩).name) with
                | some original => original
                | none =>
                  ((all_partners.filter
                    (fun p => decide (p.close_number < admitting_close_number))).get
                    ⟨i, hi⟩).commitment) /
                ((all_partners.filter
                    (fun p => decide (p.close_number < admitting_close_number))).map
                  (fun p => match commitment_increases.lookup p.name with
                    | some original => original
                    | none => p.commitment)).sum))
            a.calc_rounding := by
  simp only [calculate_allocations_with_increases] at h
  split at h
  · exact absurd (((Prod.mk.injEq ..).mp (Except.ok.inj h)).1.symm) hne
  · split at h
    · exact absurd (((Prod.mk.injEq ..).mp (Except.ok.inj h)).1.symm) hne
    · split at h
      · exact Except.noConfusion h
      · obtain ⟨hallocs, -⟩ := (Prod.mk.injEq ..).mp (Except.ok.inj h)
        subst hallocs
        refine ⟨List.length_map .., fun i hi hi2 => ?_⟩
        simp only [List.get_eq_getElem, List.getElem_map, get_allocation_commitment]
        exact ⟨trivial, trivial, rfl⟩

/-- Partner A after increasing its commitment from 1,000,000 to 2,000,000
at close 2. -/
def c5A : Partner := ⟨"A", 0, 2000000, 1⟩

/-- Partner B, an existing partner with no increase. -/
def c5B : Partner := ⟨"B", 0, 1000000, 1⟩

/-- The commitment-increases map: A's original commitment was 1,000,000. -/
def c5Incr : List (String × ℚ) := [("A", 1000000)]

/-- The synthetic new-LP record for A's increase, owing 700 at close 2. -/
def c5NewLp : NewLPCalculation := ⟨"A-increase", 200, 1000000, 2, 0, 700, []⟩

/-- The allocation records the code produces: A and B each receive 350
(basis 1,000,000 each out of 2,000,000), and A's displayed commitment is
the current 2,000,000. -/
def c5Allocs : List ExistingLPAllocation :=
  [⟨"A", 2000000, 1, 350, [(2, 350)]⟩, ⟨"B", 1000000, 1, 350, [(2, 350)]⟩]

/-- Witness for C5 at a concrete commitment-increase scenario. -/
theorem C5_allocation_basis_uses_original_commitment_witness :
    c5Allocs.length = ([c5A, c5B].filter (fun p => decide (p.close_number < 2))).length :=
  (C5_allocation_basis_uses_original_commitment c9FlatAssumptions [c5NewLp]
    [c5A, c5B] c5Incr 2 c5Allocs 700
    (by
      have hBA : ("B" == "A") = false := by decide
      have hAA : ("A" == "A") = true := by decide
      norm_num [calculate_allocations_with_increases, c5A, c5B, c5Incr, c5NewLp,
        c5Allocs, get_allocation_commitment, List.lookup, hBA, hAA,
        c9FlatAssumptions, c9VarAssumptions,
        round_amount_exact 350 2 35000 (by norm_num),
        round_amount_exact 700 2 70000 (by norm_num)])
    (by simp [c5Allocs])).1

/-- Every detail record `_calculate_late_interest_for_call` produces carries
a non-negative day count: non-late calls get the literal `days_late = 0`
and the late branch requires `0 < days_late`. -/
theorem late_detail_days_nonneg (a : FundAssumptions)
    (rc : InterestRateCalculator) (lp : Partner) (call : CapitalCall)
    (detail : LateInterestDetail)
    (h : calculate_late_interest_for_call a rc lp call = .ok detail) :
    0 ≤ detail.days_late := by
  simp only [calculate_late_interest_for_call] at h
  split at h
  · rw [← Except.ok.inj h]
  · split at h
    · exact Except.noConfusion h
    · rw [← Except.ok.inj h]
      simp only []
      omega

/-- Every detail the per-call loop returns has a non-negative day count. -/
theorem detailsLoop_days_nonneg (a : FundAssumptions)
    (rc : InterestRateCalculator) (lp : Partner) :
    ∀ (calls : List CapitalCall) (ds : List LateInterestDetail),
      detailsLoop a rc lp calls = .ok ds → ∀ d ∈ ds, 0 ≤ d.days_late := by
  intro calls
  induction calls with
  | nil =>
    intro ds h d hd
    simp only [detailsLoop] at h
    rw [← Except.ok.inj h] at hd
    exact absurd hd (List.not_mem_nil d)
  | cons c rest ih =>
    intro ds h d hd
    simp only [detailsLoop] at h
    split at h
    · exact Except.noConfusion h
    · rename_i detail hdetail
      split at h
      · exact Except.noConfusion h
      · rename_i ds2 hds2
        rw [← Except.ok.inj h] at hd
        rcases List.mem_cons.mp hd with rfl | hmem
        · exact late_detail_days_nonneg a rc lp c d hdetail
        · exact ih ds2 hds2 d hmem

/-- A capital call whose due date equals the LP's issue date is excluded
from the missed-call list (the filter is a strict `<`). -/
theorem missedCalls_drop_equal_due (lp : Partner) (pre post : List CapitalCall)
    (call : CapitalCall) (h : call.due_date = lp.issue_date) :
    missedCalls lp (pre ++ call :: post) = missedCalls lp (pre ++ post) := by
  unfold missedCalls
  congr 1
  rw [List.filter_append, List.filter_append, List.filter_cons]
  simp [h]

/-- **C8.** A capital call with `due_date = issue_date` contributes nothing
to that LP's calculation — dropping it from the capital-call list leaves
the result unchanged, because the missed-call set is exactly the calls due
strictly before the issue date, ordered ascending by call number; and no
detail record ever carries a negative day count. -/
theorem C8_equal_due_date_call_contributes_nothing (a : FundAssumptions)
    (rc : InterestRateCalculator) (lp : Partner) (pre post : List CapitalCall)
    (call : CapitalCall) (h : call.due_date = lp.issue_date) :
    calculate_late_interest_for_new_lp a rc lp (pre ++ call :: post)
      = calculate_late_interest_for_new_lp a rc lp (pre ++ post) ∧
    (missedCalls lp (pre ++ call :: post)).Perm
      ((pre ++ call :: post).filter (fun c => decide (c.due_date < lp.issue_date))) ∧
    (missedCalls lp (pre ++ call :: post)).Pairwise
      (fun x y => x.call_number ≤ y.call_number) ∧
    (∀ out, calculate_late_interest_for_new_lp a rc lp (pre ++ call :: post) = .ok out →
      ∀ d ∈ out.breakdown_by_capital_call, 0 ≤ d.days_late) := by
  refine ⟨?_, ?_, ?_, ?_⟩
  · unfold calculate_late_interest_for_new_lp
    rw [missedCalls_drop_equal_due lp pre post call h]
  · exact List.perm_insertionSort _ _
  · haveI : IsTotal CapitalCall (fun x y => x.call_number ≤ y.call_number) :=
      ⟨fun x y => le_total x.call_number y.call_number⟩
    haveI : IsTrans CapitalCall (fun x y => x.call_number ≤ y.call_number) :=
      ⟨fun _ _ _ hxy hyz => le_trans hxy hyz⟩
    exact List.sorted_insertionSort _ _
  · intro out hout
    simp only [calculate_late_interest_for_new_lp] at hout
    split at hout
    · exact Except.noConfusion hout
    · rename_i ds hds
      rw [← Except.ok.inj hout]
      exact detailsLoop_days_nonneg a rc lp _ ds hds

/-- A capital call due exactly on `c9NewLp`'s issue date (day 200). -/
def c8Call : CapitalCall := ⟨1, 200, 10⟩

/-- Witness for C8: with a call due on the LP's issue date, the
calculation over `[c8Call]` equals the calculation over `[]`. -/
theorem C8_equal_due_date_call_contributes_nothing_witness :
    calculate_late_interest_for_new_lp c9FlatAssumptions
        ⟨.simple, .flatRate 5⟩ c9NewLp ([] ++ c8Call :: [])
      = calculate_late_interest_for_new_lp c9FlatAssumptions
        ⟨.simple, .flatRate 5⟩ c9NewLp ([] ++ []) :=
  (C8_equal_due_date_call_contributes_nothing c9FlatAssumptions
    ⟨.simple, .flatRate 5⟩ c9NewLp [] [] c8Call rfl).1

/-- The constructor's stored rate history is descending by effective date. -/
theorem sortRateHistoryDesc_sorted (hist : List PrimeRateChange) :
    (sortRateHistoryDesc hist).Pairwise
      (fun a b => b.effective_date ≤ a.effective_date) := by
  haveI : IsTotal PrimeRateChange
      (fun a b => b.effective_date ≤ a.effective_date) :=
    ⟨fun x y => le_total y.effective_date x.effective_date⟩
  haveI : IsTrans PrimeRateChange
      (fun a b => b.effective_date ≤ a.effective_date) :=
    ⟨fun _ _ _ h1 h2 => le_trans h2 h1⟩
  exact List.sorted_insertionSort _ _

/-- The stored history is a permutation of the supplied one. -/
theorem sortRateHistoryDesc_perm (hist : List PrimeRateChange) :
    (sortRateHistoryDesc hist).Perm hist :=
  List.perm_insertionSort _ _

/-- **C6.** The rate resolver: in flat mode it returns the flat rate for
every date; in variable mode (built by the constructor, which stores the
history sorted descending) it returns the rate of a latest entry with
`effective_date ≤ target` plus the spread whenever one exists, and the
rate of an earliest entry plus the spread when the target precedes every
entry of a non-empty history. -/
theorem C6_get_rate_at_date_resolution (cm : InterestCompounding)
    (hist : List PrimeRateChange) (spread : ℚ) (fr : ℚ) (t : Date) :
    (get_rate_at_date ⟨cm, .flatRate fr⟩ t = .ok fr) ∧
    (mkInterestRateCalculator cm (some hist) (some spread) none
      = .ok ⟨cm, .varRate (sortRateHistoryDesc hist) spread⟩) ∧
    ((∃ rc ∈ hist, rc.effective_date ≤ t) →
      ∃ rc ∈ hist, rc.effective_date ≤ t ∧
        (∀ rc2 ∈ hist, rc2.effective_date ≤ t →
          rc2.effective_date ≤ rc.effective_date) ∧
        get_rate_at_date ⟨cm, .varRate (sortRateHistoryDesc hist) spread⟩ t
          = .ok (rc.rate + spread)) ∧
    (hist ≠ [] → (∀ rc ∈ hist, t < rc.effective_date) →
      ∃ rc ∈ hist, (∀ rc2 ∈ hist, rc.effective_date ≤ rc2.effective_date) ∧
        get_rate_at_date ⟨cm, .varRate (sortRateHistoryDesc hist) spread⟩ t
          = .ok (rc.rate + spread)) := by
  have hperm := sortRateHistoryDesc_perm hist
  have hsorted := sortRateHistoryDesc_sorted hist
  refine ⟨rfl, rfl, ?_, ?_⟩
  · rintro ⟨rc0, hrc0mem, hrc0le⟩
    have hsome : ((sortRateHistoryDesc hist).find?
        (fun rc => decide (rc.effective_date ≤ t))).isSome :=
      List.find?_isSome.mpr ⟨rc0, hperm.mem_iff.mpr hrc0mem, by simpa using hrc0le⟩
    obtain ⟨rcf, hfind⟩ := Option.isSome_iff_exists.mp hsome
    have hrcfle : rcf.effective_date ≤ t := by
      simpa using List.find?_some hfind
    have hrcfmem : rcf ∈ hist :=
      hperm.mem_iff.mp (List.mem_of_find?_eq_some hfind)
    obtain ⟨-, as, bs, hsplit, hall⟩ := List.find?_eq_some.mp hfind
    refine ⟨rcf, hrcfmem, hrcfle, fun rc2 hrc2mem hrc2le => ?_, ?_⟩
    · have hrc2sl : rc2 ∈ as ++ rcf :: bs := by
        rw [← hsplit]; exact hperm.mem_iff.mpr hrc2mem
      rcases List.mem_append.mp hrc2sl with hin | hin
      · exact absurd (by simpa using hall rc2 hin) (by simpa using hrc2le)
      · rcases List.mem_cons.mp hin with rfl | hin
        · exact le_rfl
        · have := (List.pairwise_append.mp (hsplit ▸ hsorted)).2.1
          exact (List.pairwise_cons.mp this).1 rc2 hin
    · simp only [get_rate_at_date, hfind]
  · intro hne hall
    have hnone : (sortRateHistoryDesc hist).find?
        (fun rc => decide (rc.effective_date ≤ t)) = none :=
      List.find?_eq_none.mpr (fun x hx => by
        simpa using not_le_of_lt (hall x (hperm.mem_iff.mp hx)))
    have hslne : sortRateHistoryDesc hist ≠ [] := by
      intro hcon
      exact hne (((hcon ▸ hperm) : ([] : List PrimeRateChange).Perm hist).symm.eq_nil)
    obtain ⟨last, hlast⟩ :=
      Option.isSome_iff_exists.mp (List.getLast?_isSome.mpr hslne)
    have hlastmem : last ∈ hist :=
      hperm.mem_iff.mp (List.mem_of_getLast?_eq_some hlast)
    obtain ⟨ys, hys⟩ := List.getLast?_eq_some_iff.mp hlast
    refine ⟨last, hlastmem, fun rc2 hrc2mem => ?_, ?_⟩
    · have hrc2sl : rc2 ∈ ys ++ [last] := by
        rw [← hys]; exact hperm.mem_iff.mpr hrc2mem
      rcases List.mem_append.mp hrc2sl with hin | hin
      · exact (List.pairwise_append.mp (hys ▸ hsorted)).2.2 rc2 hin last
          (List.mem_singleton_self last)
      · rw [List.mem_singleton.mp hin]
    · simp only [get_rate_at_date, hnone, hlast]

/-- A two-entry strictly ascending rate history for the C6 witness. -/
def c6Hist : List PrimeRateChange := [⟨10, 5⟩, ⟨20, 7⟩]

/-- Witness for C6: at `t = 15` the resolver run over `c6Hist` with
spread 2 returns the rate of a latest entry dated at most 15, plus the
spread. -/
theorem C6_get_rate_at_date_resolution_witness :
    ∃ rc ∈ c6Hist, rc.effective_date ≤ 15 ∧
      (∀ rc2 ∈ c6Hist, rc2.effective_date ≤ 15 →
        rc2.effective_date ≤ rc.effective_date) ∧
      get_rate_at_date ⟨.simple, .varRate (sortRateHistoryDesc c6Hist) 2⟩ 15
        = .ok (rc.rate + 2) :=
  (C6_get_rate_at_date_resolution .simple c6Hist 2 0 15).2.2.1
    ⟨⟨10, 5⟩, by simp [c6Hist], by norm_num⟩

/-- A caller-supplied partner list that is out of close order. -/
def c10Partners : List Partner := [c9NewLp, c7Partner]

/-- The engine output for `c10Partners` with no capital calls. -/
def c10Out : EngineOutput :=
  { fund_name := "F", total_late_interest_collected := 0,
    total_late_interest_allocated := 0,
    new_lps := [⟨"LP", 200, 1000000, 2, 0, 0, []⟩],
    existing_lps := [],
    summary_by_close := [⟨2, 1, 1, 0, 0, 0⟩],
    partners_final := [c7Partner, c9NewLp],
    capital_calls_final := [] }

/-- Concrete engine run: the returned partner list is the close-sorted
permutation of the caller's list, which differs from the order passed. -/
theorem c10_run_eval :
    run_complete_calculation c9FlatAssumptions c10Partners [] [] = .ok c10Out := by
  norm_num [run_complete_calculation, c9FlatAssumptions, c9VarAssumptions,
    c10Partners, c10Out, c9NewLp, c7Partner, mkLateInterestRateCalculator,
    mkInterestRateCalculator, sortPartnersByClose, closesToProcess, allCloses,
    List.dedup, List.pwFilter, processCloses, newLpCalcsLoop,
    calculate_late_interest_for_new_lp, missedCalls, detailsLoop,
    round_amount_zero, aggregate_allocations_across_closes]

/-- **C10.** A successful `run_complete_calculation` leaves the
caller-supplied partner list stably sorted by `close_number` — a
permutation of the records passed in (no `Partner` record is modified or
dropped), but possibly in a different order, as a concrete run shows — and
returns the capital-calls list entirely unchanged. -/
theorem C10_run_sorts_partner_list_in_place (a : FundAssumptions)
    (partners : List Partner) (capital_calls : List CapitalCall)
    (commitment_increases : List (String × ℚ)) (out : EngineOutput)
    (h : run_complete_calculation a partners capital_calls commitment_increases
      = .ok out) :
    out.partners_final = sortPartnersByClose partners ∧
    out.partners_final.Perm partners ∧
    out.partners_final.Pairwise (fun p q => p.close_number ≤ q.close_number) ∧
    out.capital_calls_final = capital_calls ∧
    (∃ out2, run_complete_calculation c9FlatAssumptions c10Partners [] [] = .ok out2 ∧
      out2.partners_final ≠ c10Partners) := by
  have hfields : out.partners_final = sortPartnersByClose partners ∧
      out.capital_calls_final = capital_calls := by
    simp only [run_complete_calculation] at h
    split at h
    · exact Except.noConfusion h
    · split at h
      · exact Except.noConfusion h
      · rw [← Except.ok.inj h]
        exact ⟨rfl, rfl⟩
  haveI : IsTotal Partner (fun p q => p.close_number ≤ q.close_number) :=
    ⟨fun x y => le_total x.close_number y.close_number⟩
  haveI : IsTrans Partner (fun p q => p.close_number ≤ q.close_number) :=
    ⟨fun _ _ _ h1 h2 => le_trans h1 h2⟩
  refine ⟨hfields.1, ?_, ?_, hfields.2, ?_⟩
  · rw [hfields.1]; exact List.perm_insertionSort _ _
  · rw [hfields.1]; exact List.sorted_insertionSort _ _
  · refine ⟨c10Out, c10_run_eval, ?_⟩
    simp [c10Out, c10Partners, c7Partner, c9NewLp]

/-- Witness for C10 at the concrete out-of-order input. -/
theorem C10_run_sorts_partner_list_in_place_witness :
    c10Out.partners_final = sortPartnersByClose c10Partners ∧
    c10Out.capital_calls_final = [] :=
  ⟨(C10_run_sorts_partner_list_in_place c9FlatAssumptions c10Partners [] []
      c10Out c10_run_eval).1,
   (C10_run_sorts_partner_list_in_place c9FlatAssumptions c10Partners [] []
      c10Out c10_run_eval).2.2.2.1⟩

/-- A list of length at most one has an empty tail. -/
theorem tail_eq_nil_of_length_le_one {α : Type} {l : List α}
    (h : l.length ≤ 1) : l.tail = [] := by
  match l with
  | [] => rfl
  | [a] => rfl
  | a :: b :: t => simp at h

/-- The engine's close list is strictly ascending. -/
theorem allCloses_pairwise_lt (partners : List Partner) :
    (allCloses partners).Pairwise (fun x y => x < y) := by
  haveI : IsTotal ℤ (fun x y : ℤ => x ≤ y) := ⟨fun x y => le_total x y⟩
  haveI : IsTrans ℤ (fun x y : ℤ => x ≤ y) := ⟨fun _ _ _ h1 h2 => le_trans h1 h2⟩
  have hsorted : (allCloses partners).Pairwise (fun x y : ℤ => x ≤ y) :=
    List.sorted_insertionSort _ _
  have hnodup : (allCloses partners).Nodup :=
    (List.perm_insertionSort _ _).nodup_iff.mpr (List.nodup_dedup _)
  exact (hsorted.and hnodup).imp (fun hpq => lt_of_le_of_ne hpq.1 hpq.2)

/-- Membership in the engine's close list comes from a partner. -/
theorem mem_allCloses (partners : List Partner) (c : ℤ)
    (h : c ∈ allCloses partners) : ∃ p ∈ partners, p.close_number = c := by
  have h2 := (List.perm_insertionSort _ _).mem_iff.mp h
  rw [List.mem_dedup] at h2
  obtain ⟨p, hp, hpc⟩ := List.mem_map.mp h2
  exact ⟨p, (List.perm_insertionSort _ partners).mem_iff.mp hp, hpc⟩

/-- **C2.** The orchestrator groups partners by close, sorts the distinct
close numbers strictly ascending, and processes every close except the
first: if every partner's close number is at least 1 (the data-model
invariant), close 1 is never processed as an admitting close; and a fund
whose partners are all at close 1 yields a successful run with zero
new-LP calculation records and zero allocation records. -/
theorem C2_close_one_never_admitting (a : FundAssumptions)
    (partners : List Partner) (capital_calls : List CapitalCall)
    (commitment_increases : List (String × ℚ)) :
    (allCloses partners).Pairwise (fun x y => x < y) ∧
    ((∀ p ∈ partners, 1 ≤ p.close_number) → 1 ∉ closesToProcess partners) ∧
    ((∀ p ∈ partners, p.close_number = 1) →
      ∀ out, run_complete_calculation a partners capital_calls commitment_increases
          = .ok out →
        out.new_lps = [] ∧ out.existing_lps = []) := by
  refine ⟨allCloses_pairwise_lt partners, ?_, ?_⟩
  · intro h1 hmem
    unfold closesToProcess at hmem
    match hL : allCloses partners with
    | [] => rw [hL] at hmem; exact absurd hmem (List.not_mem_nil 1)
    | hd :: tl =>
      rw [hL] at hmem
      have hpw := allCloses_pairwise_lt partners
      rw [hL] at hpw
      have hhdlt : hd < 1 := (List.pairwise_cons.mp hpw).1 1 hmem
      obtain ⟨p, hp, hpc⟩ := mem_allCloses partners hd (hL ▸ List.mem_cons_self hd tl)
      exact absurd (hpc ▸ h1 p hp) (by omega)
  · intro hall out hout
    have hctp : closesToProcess partners = [] := by
      apply tail_eq_nil_of_length_le_one
      unfold allCloses
      rw [(List.perm_insertionSort _ _).length_eq]
      set M := ((sortPartnersByClose partners).map (·.close_number)) with hM
      have hone : ∀ x ∈ M.dedup, x = 1 := by
        intro x hx
        obtain ⟨p, hp, hpc⟩ := List.mem_map.mp (List.mem_dedup.mp hx)
        exact hpc ▸ hall p ((List.perm_insertionSort _ partners).mem_iff.mp hp)
      match hD : M.dedup with
      | [] => simp
      | [c] => simp
      | c1 :: c2 :: t =>
        have hnd : (c1 :: c2 :: t).Nodup := hD ▸ List.nodup_dedup M
        have h1 : c1 = 1 := hone c1 (hD ▸ List.mem_cons_self c1 (c2 :: t))
        have h2 : c2 = 1 := hone c2 (hD ▸ List.mem_cons.mpr
          (Or.inr (List.mem_cons_self c2 t)))
        rw [h1, h2] at hnd
        exact absurd rfl ((List.pairwise_cons.mp hnd).1 1 (List.mem_cons_self 1 t))
    simp only [run_complete_calculation, hctp, processCloses] at hout
    split at hout
    · exact Except.noConfusion hout
    · rw [← Except.ok.inj hout]
      exact ⟨rfl, rfl⟩

/-- The engine output for a fund containing only the close-1 partner. -/
def c2Out : EngineOutput :=
  { fund_name := "F", total_late_interest_collected := 0,
    total_late_interest_allocated := 0, new_lps := [], existing_lps := [],
    summary_by_close := [], partners_final := [c7Partner],
    capital_calls_final := [] }

/-- Concrete close-1-only engine run. -/
theorem c2_run_eval :
    run_complete_calculation c9FlatAssumptions [c7Partner] [] [] = .ok c2Out := by
  norm_num [run_complete_calculation, c9FlatAssumptions, c9VarAssumptions,
    c7Partner, c2Out, mkLateInterestRateCalculator, mkInterestRateCalculator,
    sortPartnersByClose, closesToProcess, allCloses, List.dedup, List.pwFilter,
    processCloses]

/-- Witness for C2: closes `{1, 2}` never process close 1, and the
close-1-only fund produces empty new-LP and allocation lists. -/
theorem C2_close_one_never_admitting_witness :
    (1 ∉ closesToProcess c10Partners) ∧
    (c2Out.new_lps = [] ∧ c2Out.existing_lps = []) :=
  ⟨(C2_close_one_never_admitting c9FlatAssumptions c10Partners [] []).2.1
      (by
        intro p hp
        rcases List.mem_cons.mp hp with rfl | hp2
        · norm_num [c9NewLp]
        · rcases List.mem_cons.mp hp2 with rfl | hp3
          · norm_num [c7Partner]
          · exact absurd hp3 (List.not_mem_nil p)),
   (C2_close_one_never_admitting c9FlatAssumptions [c7Partner] [] []).2.2
      (by
        intro p hp
        rcases List.mem_cons.mp hp with rfl | hp2
        · norm_num [c7Partner]
        · exact absurd hp2 (List.not_mem_nil p))
      c2Out c2_run_eval⟩

/-- With a non-empty stored history, the variable-mode rate resolver never
fails, and returns `rateAtD`. -/
theorem get_rate_varRate_ok (cm : InterestCompounding)
    (hist : List PrimeRateChange) (spread : ℚ) (t : Date) (hne : hist ≠ []) :
    get_rate_at_date ⟨cm, .varRate hist spread⟩ t
      = .ok (rateAtD ⟨cm, .varRate hist spread⟩ t) := by
  rcases hf : hist.find? (fun rc => decide (rc.effective_date ≤ t)) with _ | rc
  · rcases hl : hist.getLast? with _ | rc2
    · exact absurd (List.getLast?_eq_none_iff.mp hl) hne
    · simp [get_rate_at_date, rateAtD, hf, hl]
  · simp [get_rate_at_date, rateAtD, hf]

/-- The boundary loop of the variable-rate simple-interest branch computes
the specification's inner segment sum: starting from `cur` with accumulator
`acc` over ascending boundaries `bs` (all at or after `cur`), it ends at
the last boundary (or `cur`) having added the spec's segment sum for
`[cur, e]` minus the final inclusive segment (which the caller adds). -/
theorem simpleSegLoop_spec (cm : InterestCompounding)
    (hist : List PrimeRateChange) (spread : ℚ) (P : ℚ) (e : Date)
    (hne : hist ≠ []) :
    ∀ (bs : List PrimeRateChange) (cur : Date) (acc : ℚ),
      (∀ b ∈ bs, cur ≤ b.effective_date) →
      bs.Pairwise (fun x y => x.effective_date ≤ y.effective_date) →
      simpleSegLoop ⟨cm, .varRate hist spread⟩ P bs cur acc
        = .ok ((bs.map (·.effective_date)).getLastD cur,
            acc
              + specSegmentSum ⟨cm, .varRate hist spread⟩ P e cur
                  (bs.map (·.effective_date))
              - P * (rateAtD ⟨cm, .varRate hist spread⟩
                    ((bs.map (·.effective_date)).getLastD cur) / 100)
                * (((e - (bs.map (·.effective_date)).getLastD cur + 1 : ℤ) : ℚ) / 365)) := by
  intro bs
  induction bs with
  | nil =>
    intro cur acc _ _
    simp only [simpleSegLoop, List.map_nil, List.getLastD_nil, specSegmentSum]
    congr 1
    ext
    · rfl
    · ring
  | cons rc rest ih =>
    intro cur acc hcur hpw
    have hcurle : cur ≤ rc.effective_date := hcur rc (List.mem_cons_self rc rest)
    have hrest : ∀ b ∈ rest, rc.effective_date ≤ b.effective_date :=
      (List.pairwise_cons.mp hpw).1
    have hpwrest : rest.Pairwise (fun x y => x.effective_date ≤ y.effective_date) :=
      (List.pairwise_cons.mp hpw).2
    simp only [simpleSegLoop]
    by_cases hpos : 0 < rc.effective_date - cur
    · rw [if_pos hpos, get_rate_varRate_ok cm hist spread cur hne]
      show simpleSegLoop ⟨cm, .varRate hist spread⟩ P rest rc.effective_date
          (acc + P * (rateAtD ⟨cm, .varRate hist spread⟩ cur / 100)
            * (((rc.effective_date - cur : ℤ) : ℚ) / 365)) = _
      rw [ih rc.effective_date
        (acc + P * (rateAtD ⟨cm, .varRate hist spread⟩ cur / 100)
          * (((rc.effective_date - cur : ℤ) : ℚ) / 365)) hrest hpwrest]
      simp only [List.map_cons, List.getLastD_cons, specSegmentSum]
      congr 1
      ext
      · rfl
      · ring
    · have h0 : rc.effective_date - cur ≤ 0 := not_lt.mp hpos
      have heq : rc.effective_date = cur := le_antisymm (by linarith) hcurle
      rw [if_neg hpos]
      rw [ih rc.effective_date acc hrest hpwrest]
      simp only [List.map_cons, List.getLastD_cons, specSegmentSum]
      subst heq
      congr 1
      ext
      · rfl
      · have hzero : ((rc.effective_date - rc.effective_date : ℤ) : ℚ) = 0 := by
          norm_num
        rw [hzero]
        ring

/-- Membership in the accrual period's boundary list is exactly the filter
condition `start_date < effective_date ≤ end_date`. -/
theorem mem_rateChangesInPeriod (hist : List PrimeRateChange) (s e : Date)
    (rc : PrimeRateChange) :
    rc ∈ rateChangesInPeriod hist s e ↔
      rc ∈ hist ∧ s < rc.effective_date ∧ rc.effective_date ≤ e := by
  unfold rateChangesInPeriod
  rw [(List.perm_insertionSort _ _).mem_iff, List.mem_filter]
  simp [and_assoc]

/-- The boundary list is ascending by effective date. -/
theorem rateChangesInPeriod_sorted (hist : List PrimeRateChange) (s e : Date) :
    (rateChangesInPeriod hist s e).Pairwise
      (fun x y => x.effective_date ≤ y.effective_date) := by
  haveI : IsTotal PrimeRateChange
      (fun x y => x.effective_date ≤ y.effective_date) :=
    ⟨fun x y => le_total x.effective_date y.effective_date⟩
  haveI : IsTrans PrimeRateChange
      (fun x y => x.effective_date ≤ y.effective_date) :=
    ⟨fun _ _ _ h1 h2 => le_trans h1 h2⟩
  exact List.sorted_insertionSort _ _

/-- The last boundary date (or the start date when there is none) does not
exceed the end date. -/
theorem boundary_getLastD_le (hist : List PrimeRateChange) (s e : Date)
    (hse : s ≤ e) :
    ((rateChangesInPeriod hist s e).map (·.effective_date)).getLastD s ≤ e := by
  rcases List.mem_cons.mp
      (List.getLastD_mem_cons ((rateChangesInPeriod hist s e).map (·.effective_date)) s)
    with hs | hmem
  · rw [hs]; exact hse
  · obtain ⟨rc, hrc, heq⟩ := List.mem_map.mp hmem
    rw [← heq]
    exact ((mem_rateChangesInPeriod hist s e rc).mp hrc).2.2

/-- The start date is at most every boundary date. -/
theorem boundary_le (hist : List PrimeRateChange) (s e : Date) :
    ∀ b ∈ rateChangesInPeriod hist s e, s ≤ b.effective_date :=
  fun b hb => le_of_lt ((mem_rateChangesInPeriod hist s e b).mp hb).2.1

/-- `Except.bind` applied to a success is the continuation. -/
theorem except_bind_of_ok {ε α β : Type} (a : α) (f : α → Except ε β) :
    (Except.ok a : Except ε α).bind f = f a := rfl

/-- **C4.** For a variable-rate simple-interest accrual with a non-empty
rate history, `end_date ≥ start_date` and a nonzero principal: the
interval is partitioned exactly at the rate-change boundaries with
`start_date < effective_date ≤ end_date`; the interest returned is the
specification's segment sum (non-inclusive day counts for the segments
before each boundary, at the rate effective at the segment start, and an
inclusive day count for the final segment); and the effective rate
returned is `(total_interest / principal) * (365 / total_days) * 100`
with the inclusive total day count. -/
theorem C4_variable_simple_interest_segmentation (cm : InterestCompounding)
    (hist : List PrimeRateChange) (spread P : ℚ) (s e : Date)
    (hne : hist ≠ []) (hse : s ≤ e) (hP : P ≠ 0) :
    (∀ rc, rc ∈ rateChangesInPeriod hist s e ↔
        rc ∈ hist ∧ s < rc.effective_date ∧ rc.effective_date ≤ e) ∧
    calculate_simple_interest ⟨cm, .varRate hist spread⟩ P s e
      = .ok (specSegmentSum ⟨cm, .varRate hist spread⟩ P e s
            ((rateChangesInPeriod hist s e).map (·.effective_date)),
          specSegmentSum ⟨cm, .varRate hist spread⟩ P e s
              ((rateChangesInPeriod hist s e).map (·.effective_date)) / P
            * (365 / ((e - s + 1 : ℤ) : ℚ)) * 100) := by
  refine ⟨mem_rateChangesInPeriod hist s e, ?_⟩
  have hLe : ((rateChangesInPeriod hist s e).map (·.effective_date)).getLastD s ≤ e :=
    boundary_getLastD_le hist s e hse
  simp only [calculate_simple_interest]
  rw [if_neg (show ¬(e - s + 1 ≤ 0) from fun hcon => absurd hse (by linarith))]
  rw [simpleSegLoop_spec cm hist spread P e hne (rateChangesInPeriod hist s e)
    s 0 (boundary_le hist s e) (rateChangesInPeriod_sorted hist s e)]
  rw [except_bind_of_ok]
  rw [if_pos (show (0:ℤ) <
    e - ((rateChangesInPeriod hist s e).map (·.effective_date)).getLastD s + 1
    by linarith)]
  rw [get_rate_varRate_ok cm hist spread
    (((rateChangesInPeriod hist s e).map (·.effective_date)).getLastD s) hne]
  rw [except_bind_of_ok]
  rw [except_bind_of_ok]
  rw [if_neg hP]
  have hX : ∀ (S F : ℚ), (0 : ℚ) + S - F + F = S := fun S F => by ring
  simp only [hX]

/-- A two-entry stored history for the C4 witness (descending order, one
boundary inside the accrual window). -/
def c4Hist : List PrimeRateChange := [⟨50, 7⟩, ⟨-10, 5⟩]

/-- Witness for C4: the concrete variable-rate accrual over `[0, 100]`
returns the specification's segment sum and flat-equivalent rate. -/
theorem C4_variable_simple_interest_segmentation_witness :
    calculate_simple_interest ⟨.simple, .varRate c4Hist 0⟩ 1000 0 100
      = .ok (specSegmentSum ⟨.simple, .varRate c4Hist 0⟩ 1000 100 0
            ((rateChangesInPeriod c4Hist 0 100).map (·.effective_date)),
          specSegmentSum ⟨.simple, .varRate c4Hist 0⟩ 1000 100 0
              ((rateChangesInPeriod c4Hist 0 100).map (·.effective_date)) / 1000
            * (365 / ((100 - 0 + 1 : ℤ) : ℚ)) * 100) :=
  (C4_variable_simple_interest_segmentation .simple c4Hist 0 1000 0 100
    (by simp [c4Hist]) (by norm_num) (by norm_num)).2
